import Mathlib

/-
Verification of the KR_TGM admin dashboard (src/streamlit_app.py).

The file gives a shallow embedding of the data-access behaviour of the
dashboard: the machines CSV-import upsert, the in-memory row filter of the
machines page, the maintenance-form submission, the history read ordering,
the page routing/authentication gate, and the SQL texts passed to the
backing store.  The schema-tolerant repository operations described by the
specification (`resolveRead`, `appendRecord`, `upsertByNaturalKey` over a
live schema) have no implementation in src (this iteration reads with
`select *` and writes fixed column lists), so those operations are
modelled from the specification text and marked as such.

Tables are modelled as lists of rows; machine integers of the source are
Lean `Int`/`Nat`; fallible operations return `Except`.  Python string
helpers (`strip`, `lower`, the `in` substring test, `str.isdigit`,
`int(...)`) are embedded as executable functions on `String`.
-/

namespace KRTGM

/-- Python `str.strip()`: drop leading and trailing whitespace. -/
def pyStrip (s : String) : String :=
  ⟨((s.data.dropWhile Char.isWhitespace).reverse.dropWhile Char.isWhitespace).reverse⟩

/-- Python `str.lower()` (character-wise lowering, as used on the ASCII
filter texts of the source). -/
def pyLower (s : String) : String := ⟨s.data.map Char.toLower⟩

/-- Does `hay` begin with `needle`? (helper for the substring test). -/
def seqStart : List Char → List Char → Bool
  | [], _ => true
  | _ :: _, [] => false
  | a :: as, b :: bs => (a == b) && seqStart as bs

/-- Does `hay` contain `needle` as a contiguous subsequence? -/
def seqHas : List Char → List Char → Bool
  | n, [] => seqStart n []
  | n, b :: bs => seqStart n (b :: bs) || seqHas n bs

/-- Python `needle in hay` on strings (substring containment). -/
def pyIn (needle hay : String) : Bool := seqHas needle.data hay.data

/-- Allowed machine states (`ESTADOS_MAQUINA` of the source). -/
def ESTADOS_MAQUINA : List String :=
  ["Operativa", "Fuera de Servicio", "En Mantención", "En Prueba", "Baja", "Otro"]

/-- Maintenance types (`TIPOS_MANTENCION` of the source). -/
def TIPOS_MANTENCION : List String := ["Preventiva", "Correctiva", "Inspección", "Otro"]

/-- CSV column list (`MACHINE_COLS` of the source). -/
def MACHINE_COLS : List String :=
  ["id_maquina", "serie", "fabricante", "modelo", "juego", "sector", "banco", "estado", "notas"]

/-- One row of `public.machines`, with the columns the source writes
(insert column list of the CSV-import upsert). -/
structure MachineRow where
  id_maquina : Int
  serie : String
  fabricante : String
  modelo : String
  juego : String
  sector : String
  banco : String
  estado : String
  notas : String
deriving DecidableEq

/-- The CSV-import upsert of `page_machines`:
`insert into public.machines ... on conflict (id_maquina) do update set ...`
updating every non-key column to the excluded (new) values.  On a key
match the row becomes exactly the new values; otherwise the row is
appended. -/
def upsertMachine (db : List MachineRow) (v : MachineRow) : List MachineRow :=
  if db.any (fun r => r.id_maquina == v.id_maquina) then
    db.map (fun r => if r.id_maquina == v.id_maquina then v else r)
  else db ++ [v]

/-- A generic row as returned by `select *` with `RealDictCursor`: a
mapping from present column names to values (values modelled as their
display strings; an absent key models a column missing from the live
schema). -/
abbrev Row := List (String × String)

/-- Python `row.get(c)`. -/
def rowGet (r : Row) (c : String) : Option String := List.lookup c r

/-- Python `row.get(c, "")` / `(row.get(c) or "")`. -/
def rowStr (r : Row) (c : String) : String := (rowGet r c).getD ""

/-- The six filter inputs of the machines page. -/
structure Filters where
  f_id : String
  f_fab : String
  f_sector : String
  f_modelo : String
  f_banco : String
  f_estado : String
deriving DecidableEq

/-- The in-memory `match` predicate of `page_machines` (lines 288-302):
each non-empty filter text must occur as a substring of the corresponding
column value (case-insensitively except for the id), a missing column
reading as the empty string; the estado filter compares exactly unless it
is `"(Todos)"`. -/
def matchRow (F : Filters) (row : Row) : Bool :=
  (pyStrip F.f_id == "" || pyIn (pyStrip F.f_id) (rowStr row "id_maquina")) &&
  (pyStrip F.f_fab == "" || pyIn (pyLower (pyStrip F.f_fab)) (pyLower (rowStr row "fabricante"))) &&
  (pyStrip F.f_sector == "" || pyIn (pyLower (pyStrip F.f_sector)) (pyLower (rowStr row "sector"))) &&
  (pyStrip F.f_modelo == "" || pyIn (pyLower (pyStrip F.f_modelo)) (pyLower (rowStr row "modelo"))) &&
  (pyStrip F.f_banco == "" || pyIn (pyLower (pyStrip F.f_banco)) (pyLower (rowStr row "banco"))) &&
  (F.f_estado == "(Todos)" || rowStr row "estado" == F.f_estado)

/-- `filtered = [r for r in rows if match(r)]` of `page_machines`. -/
def filteredRows (F : Filters) (rows : List Row) : List Row := rows.filter (matchRow F)

/-- All filter inputs empty / at their defaults (empty text inputs and the
`"(Todos)"` estado selection). -/
def emptyFilters : Filters := ⟨"", "", "", "", "", "(Todos)"⟩

/-- Modelled from the spec: intersect a `values` mapping with the live
schema, keeping only pairs whose column exists (§4.1, `upsertByNaturalKey`
step 3 and `appendRecord`).  The source has no schema introspection, so
this operation is absent from src. -/
def filterValues (schema : List String) (values : Row) : Row :=
  values.filter (fun p => decide (p.1 ∈ schema))

/-- Modelled from the spec: `resolveRead` step 1 — intersect `wanted` with
the live schema, preserving `wanted`'s order (§4.1).  Absent from src:
this iteration reads with `select *`. -/
def resolveSelect (wanted schema : List String) : List String :=
  wanted.filter (fun c => decide (c ∈ schema))

/-- Lexicographic comparison of column names by code points. -/
def lexLeCh : List Char → List Char → Bool
  | [], _ => true
  | _ :: _, [] => false
  | a :: as, b :: bs =>
    if a.toNat < b.toNat then true
    else if b.toNat < a.toNat then false
    else lexLeCh as bs

/-- Insertion step of the lexical sort of column names. -/
def lexInsert (s : String) : List String → List String
  | [] => [s]
  | t :: ts => if lexLeCh s.data t.data then s :: t :: ts else t :: lexInsert s ts

/-- Lexical sort of column names (insertion sort). -/
def lexSortCols : List String → List String
  | [] => []
  | s :: ss => lexInsert s (lexSortCols ss)

/-- Cap on the number of non-key fallback columns (spec §4.1 step 2,
reference value 6). -/
def fallbackN : Nat := 6

/-- Modelled from the spec: `resolveRead` step 2 fallback — the
primary-key-like column if present, plus up to `fallbackN` other existing
columns in lexical order (§4.1).  Absent from src. -/
def fallbackColumns (schema : List String) (pk : String) : List String :=
  (if pk ∈ schema then [pk] else []) ++
    (lexSortCols (schema.filter (fun c => decide (c ≠ pk)))).take fallbackN

/-- Modelled from the spec: the selected column list of `resolveRead` —
the order-preserving intersection, or the fallback subset when the
intersection is empty (§4.1 steps 1-2).  Absent from src. -/
def resolveReadColumns (wanted schema : List String) (pk : String) : List String :=
  if resolveSelect wanted schema = [] then fallbackColumns schema pk
  else resolveSelect wanted schema

/-- Modelled from the spec: `appendRecord` — intersect `values` with the
live schema; fail with `SchemaMismatch` when the intersection is empty,
otherwise insert exactly the intersected columns as one new row (§4.1).
Absent from src: the maintenance insert of the source uses a fixed column
list with no schema introspection. -/
def appendRecord (schema : List String) (db : List Row) (values : Row) :
    Except String (List Row) :=
  if filterValues schema values = [] then Except.error "SchemaMismatch"
  else Except.ok (db ++ [filterValues schema values])

/-- Row update of the conflict branch: the filtered new values override,
all other columns of the existing row are preserved. -/
def updateRow (old nw : Row) : Row :=
  nw ++ old.filter (fun p => (List.lookup p.1 nw).isNone)

/-- Modelled from the spec: `upsertByNaturalKey` (§4.1) — fail with
`SchemaMismatch` when the natural-key column is missing from the live
schema (or the key has no supplied value); otherwise intersect `values`
with the schema and insert-or-update-on-conflict on the natural key,
updating exactly the filtered non-key columns (insert-or-do-nothing when
no non-key column remains).  Absent from src: the source's one upsert
writes a fixed column list. -/
def upsertByNaturalKey (schema : List String) (db : List Row) (k : String) (v : Row) :
    Except String (List Row) :=
  if k ∈ schema then
    match List.lookup k v with
    | some kv =>
      let fv := filterValues schema v
      if db.any (fun r => List.lookup k r == some kv) then
        if fv.filter (fun p => decide (p.1 ≠ k)) = [] then Except.ok db
        else Except.ok (db.map (fun r =>
          if List.lookup k r == some kv then updateRow r fv else r))
      else Except.ok (db ++ [fv])
    | none => Except.error "SchemaMismatch"
  else Except.error "SchemaMismatch"

/-- SQL text of `login_user`. -/
def loginSql : String :=
  "select id, username, password_hash, role, nombre, is_active from public.users where username=%s"

/-- Query built by `login_user`: constant text, the normalized username as
the single bound parameter (the password never reaches the query). -/
def loginQuery (username : String) : String × List String :=
  (loginSql, [pyLower (pyStrip username)])

/-- SQL text of the machines list read of `page_machines`. -/
def machinesListSql : String := "select * from public.machines order by id_maquina asc"

/-- SQL text of the single-machine read of `page_machines`. -/
def machineByIdSql : String := "select * from public.machines where id_maquina=%s"

/-- Query for one machine by id: constant text, bound id. -/
def machineByIdQuery (mid : Int) : String × List String := (machineByIdSql, [toString mid])

/-- SQL text of the CSV-import upsert of `page_machines`. -/
def importUpsertSql : String :=
  "insert into public.machines (id_maquina, serie, fabricante, modelo, juego, sector, banco, estado, notas) values (%s,%s,%s,%s,%s,%s,%s,%s,%s) on conflict (id_maquina) do update set serie=excluded.serie, fabricante=excluded.fabricante, modelo=excluded.modelo, juego=excluded.juego, sector=excluded.sector, banco=excluded.banco, estado=excluded.estado, notas=excluded.notas"

/-- Query built for one imported CSV row: constant text, nine bound
parameters. -/
def importUpsertQuery (mid : Int) (serie fabricante modelo juego sector banco estado notas : String) :
    String × List String :=
  (importUpsertSql, [toString mid, serie, fabricante, modelo, juego, sector, banco, estado, notas])

/-- SQL text of the machine update form of `page_machines`. -/
def updateMachineSql : String :=
  "update public.machines set serie=%s, fabricante=%s, modelo=%s, juego=%s, sector=%s, banco=%s, estado=%s, notas=%s where id_maquina=%s"

/-- Query built by the edit form: constant text, bound values. -/
def updateMachineQuery (serie fabricante modelo juego sector banco estado notas : String) (mid : Int) :
    String × List String :=
  (updateMachineSql, [serie, fabricante, modelo, juego, sector, banco, estado, notas, toString mid])

/-- SQL text of the machine-existence check of `page_register_maintenance`. -/
def machineExistsSql : String := "select id_maquina from public.machines where id_maquina=%s"

/-- Query for the machine-existence check: constant text, bound id. -/
def machineExistsQuery (mid : Int) : String × List String := (machineExistsSql, [toString mid])

/-- The maintenance form fields of `page_register_maintenance` (dates as
integral day numbers). -/
structure MaintInput where
  id_maquina : Int
  fecha : Int
  tipo : String
  estado_final : String
  falla : String
  diagnostico : String
  accion : String
  repuestos : String
  link_adjuntos : String
  tecnico : String
deriving DecidableEq

/-- SQL text of the maintenance insert of `page_register_maintenance`. -/
def maintInsertSql : String :=
  "insert into public.maintenance (id_maquina, fecha, tipo, estado_final, falla, diagnostico, accion, repuestos, link_adjuntos, tecnico, created_at) values (%s,%s,%s,%s,%s,%s,%s,%s,%s,%s, now())"

/-- Query built by the maintenance form: constant text, ten bound
parameters. -/
def maintInsertQuery (inp : MaintInput) : String × List String :=
  (maintInsertSql,
    [toString inp.id_maquina, toString inp.fecha, inp.tipo, inp.estado_final, inp.falla,
      inp.diagnostico, inp.accion, inp.repuestos, inp.link_adjuntos, inp.tecnico])

/-- SQL text of the unfiltered history read of `page_history`. -/
def historyAllSql : String :=
  "select * from public.maintenance where id_maquina=%s order by fecha desc, created_at desc limit %s"

/-- SQL text of the type-filtered history read of `page_history`. -/
def historyTipoSql : String :=
  "select * from public.maintenance where id_maquina=%s and tipo=%s order by fecha desc, created_at desc limit %s"

/-- Query built by `page_history`: one of two constant texts, chosen by
whether the type filter is `"(Todos)"`; id, (type,) and limit are bound
parameters. -/
def historyQuery (mid : Int) (tipo : String) (lim : Int) : String × List String :=
  if tipo == "(Todos)" then (historyAllSql, [toString mid, toString lim])
  else (historyTipoSql, [toString mid, tipo, toString lim])

/-- SQL text of the users list of `page_users`. -/
def usersListSql : String :=
  "select id, username, role, nombre, is_active, created_at from public.users order by id asc"

/-- SQL text of the create-user insert of `page_users`. -/
def createUserSql : String :=
  "insert into public.users (username, password_hash, role, nombre, is_active, created_at) values (%s,%s,%s,%s,%s, now())"

/-- Query built by the create-user form: constant text, bound values. -/
def createUserQuery (username pwHash role nombre : String) (isActive : Bool) :
    String × List String :=
  (createUserSql, [pyLower (pyStrip username), pwHash, role, nombre, toString isActive])

/-- SQL text of the password-reset update of `page_users`. -/
def resetPwSql : String := "update public.users set password_hash=%s where username=%s"

/-- Query built by the reset form: constant text, bound values. -/
def resetPwQuery (pwHash username : String) : String × List String :=
  (resetPwSql, [pwHash, pyLower (pyStrip username)])

/-- Order relation of `order by id_maquina asc` (machines list read). -/
def machineOrd (a b : MachineRow) : Prop := a.id_maquina ≤ b.id_maquina

instance : DecidableRel machineOrd := fun a b => by unfold machineOrd; infer_instance

/-- A possible output of the machines list read: some permutation of the
stored rows that is sorted as the query orders. -/
def machinesReadOut (db out : List MachineRow) : Prop :=
  db.Perm out ∧ out.Sorted machineOrd

/-- One row of `public.maintenance` with the columns the source inserts
(dates and timestamps as integers). -/
structure MaintRow where
  id_maquina : Int
  fecha : Int
  tipo : String
  estado_final : String
  falla : String
  diagnostico : String
  accion : String
  repuestos : String
  link_adjuntos : String
  tecnico : String
  created_at : Int
deriving DecidableEq

/-- Order relation of `order by fecha desc, created_at desc` (history
read). -/
def maintOrd (a b : MaintRow) : Prop :=
  b.fecha < a.fecha ∨ (a.fecha = b.fecha ∧ b.created_at ≤ a.created_at)

instance : DecidableRel maintOrd := fun a b => by unfold maintOrd; infer_instance

/-- The where-clause of the history read: the machine id always, the type
only when the filter is not `"(Todos)"`. -/
def historyPredB (mid : Int) (tipo : String) (r : MaintRow) : Bool :=
  (r.id_maquina == mid) && (tipo == "(Todos)" || r.tipo == tipo)

/-- A possible output of the history read: the matching rows in some
query-consistent order, truncated by the limit. -/
def historyReadOut (mid : Int) (tipo : String) (lim : Nat) (db out : List MaintRow) : Prop :=
  ∃ full, (db.filter (historyPredB mid tipo)).Perm full ∧ full.Sorted maintOrd ∧
    out = full.take lim

/-- The sort key of the history read. -/
def histKey (r : MaintRow) : Int × Int := (r.fecha, r.created_at)

/-- The history order on sort keys. -/
def histKeyOrd (p q : Int × Int) : Prop := q.1 < p.1 ∨ (p.1 = q.1 ∧ q.2 ≤ p.2)

instance : IsAntisymm (Int × Int) histKeyOrd := by
  constructor
  intro p q h₁ h₂
  unfold histKeyOrd at h₁ h₂
  have : p.1 = q.1 ∧ p.2 = q.2 := by omega
  exact Prod.ext this.1 this.2

/-- The session user written by `login_user`. -/
structure UserS where
  id : Int
  username : String
  role : String
  nombre : String
deriving DecidableEq

/-- What the main dispatch renders for one page value. -/
inductive Rendered where
  | loginForm
  | machinesContent
  | registerContent
  | historyContent
  | usersContent
  | loginWarning
  | adminError
  | rerunLogin
deriving DecidableEq

/-- The main routing of the source (lines 653-671): reset the page to
Login for an unauthenticated session, then dispatch; each data page
handler re-checks `is_logged_in` and `page_users` additionally requires
the admin role.  Returns the stored page value and what is rendered. -/
def route (user : Option UserS) (page0 : String) : String × Rendered :=
  let page := if page0 ≠ "Login" ∧ user = none then "Login" else page0
  if page = "Login" then (page, Rendered.loginForm)
  else if page = "Máquinas" then
    (page, match user with | none => Rendered.loginWarning | some _ => Rendered.machinesContent)
  else if page = "Registrar" then
    (page, match user with | none => Rendered.loginWarning | some _ => Rendered.registerContent)
  else if page = "Historial" then
    (page, match user with | none => Rendered.loginWarning | some _ => Rendered.historyContent)
  else if page = "Usuarios" then
    (page, match user with
      | none => Rendered.loginWarning
      | some u => if u.role = "admin" then Rendered.usersContent else Rendered.adminError)
  else ("Login", Rendered.rerunLogin)

/-- The maintenance-form submission of `page_register_maintenance`
(lines 457-483): the insert runs only when a machines row with the given
id exists; otherwise the maintenance table is left unchanged.  The Bool
reports whether a row was inserted. -/
def submitMaintenance (machines : List MachineRow) (maint : List MaintRow)
    (inp : MaintInput) (now : Int) : List MaintRow × Bool :=
  if machines.any (fun m => m.id_maquina == inp.id_maquina) then
    (maint ++ [⟨inp.id_maquina, inp.fecha, inp.tipo, inp.estado_final, inp.falla,
      inp.diagnostico, inp.accion, inp.repuestos, inp.link_adjuntos, inp.tecnico, now⟩], true)
  else (maint, false)

/-- One parsed CSV row (`parse_csv_bytes` output: every `MACHINE_COLS`
field present, already stripped). -/
structure CsvRow where
  id_maquina : String
  serie : String
  fabricante : String
  modelo : String
  juego : String
  sector : String
  banco : String
  estado : String
  notas : String
deriving DecidableEq

/-- A character accepted by Python `str.isdigit`: modelled for ASCII
digits and the superscript digits (characters with the digit property
that are not decimal digits); decimal digits of non-Latin scripts are not
modelled. -/
def pyDigitChar (c : Char) : Bool :=
  c.isDigit || c ∈ ['⁰', '¹', '²', '³', '⁴', '⁵', '⁶', '⁷', '⁸', '⁹']

/-- Python `str.isdigit`: non-empty and every character a digit. -/
def pyIsdigit (s : String) : Bool := !s.data.isEmpty && s.data.all pyDigitChar

/-- Value of a list of ASCII decimal digits. -/
def decDigitsVal (l : List Char) : Nat :=
  l.foldl (fun n c => n * 10 + (c.toNat - '0'.toNat)) 0

/-- Python `int(s)` on a stripped string: succeeds exactly on non-empty
ASCII decimal digit strings (raising `ValueError` otherwise, e.g. on
superscript digits that `str.isdigit` accepts). -/
def pyIntOfDigits (s : String) : Option Int :=
  if !s.data.isEmpty && s.data.all Char.isDigit then some (decDigitsVal s.data : Nat)
  else none

/-- Processing of one imported CSV row in `page_machines` (lines 326-359):
skip the row when `isdigit` fails or the parsed id is zero, upsert with
the estado normalized into `ESTADOS_MAQUINA` otherwise; an id accepted by
`isdigit` but rejected by `int(...)` raises, aborting the import. -/
def importRow (db : List MachineRow) (count : Nat) (r : CsvRow) :
    Except String (List MachineRow × Nat) :=
  if pyIsdigit r.id_maquina then
    match pyIntOfDigits r.id_maquina with
    | none => Except.error "ValueError"
    | some mid =>
      if mid == 0 then Except.ok (db, count)
      else
        Except.ok (upsertMachine db
          ⟨mid, r.serie, r.fabricante, r.modelo, r.juego, r.sector, r.banco,
            (if r.estado ∈ ESTADOS_MAQUINA then r.estado else "Operativa"), r.notas⟩,
          count + 1)
  else Except.ok (db, count)

/-- A maintenance row used to exhibit an order tie (same `fecha` and
`created_at` as `rowB`, different technician). -/
def rowA : MaintRow := ⟨1, 10, "Preventiva", "Operativa", "", "", "", "", "", "t1", 100⟩

/-- A second maintenance row tied with `rowA` under the history order. -/
def rowB : MaintRow := ⟨1, 10, "Preventiva", "Operativa", "", "", "", "", "", "t2", 100⟩

/-- A maintenance row with no order tie. -/
def rowC : MaintRow := ⟨1, 11, "Correctiva", "Baja", "f", "d", "a", "r", "l", "t3", 101⟩

/-- A sample stored machine. -/
def mach1 : MachineRow := ⟨3, "s1", "f1", "m1", "j1", "se1", "b1", "Operativa", "n1"⟩

/-- A second sample stored machine with a larger key. -/
def mach2 : MachineRow := ⟨8, "s2", "f2", "m2", "j2", "se2", "b2", "Baja", "n2"⟩

/-- An upsert payload reusing the key of `mach1`. -/
def mach1v : MachineRow := ⟨3, "s9", "f9", "m9", "j9", "se9", "b9", "En Prueba", "n9"⟩

instance (db out : List MachineRow) : Decidable (machinesReadOut db out) := by
  unfold machinesReadOut; infer_instance

/- ## Helper lemmas -/

theorem data_eq_nil_iff (s : String) : s.data = [] ↔ s = "" := by
  constructor
  · intro h; cases s; simp_all
  · intro h; subst h; rfl

theorem pyLower_eq_empty_iff (s : String) : pyLower s = "" ↔ s = "" := by
  rw [← data_eq_nil_iff (pyLower s), ← data_eq_nil_iff s]
  show s.data.map Char.toLower = [] ↔ s.data = []
  simp

theorem pyIn_empty_false (n : String) (h : n ≠ "") : pyIn n "" = false := by
  have hd : n.data ≠ [] := fun hh => h ((data_eq_nil_iff n).mp hh)
  show seqHas n.data [] = false
  cases hn : n.data with
  | nil => exact absurd hn hd
  | cons a as => rfl

theorem lookup_filter_keys (f : String → Bool) (l : Row) (c : String) :
    List.lookup c (l.filter (fun p => f p.1)) =
      if f c = true then List.lookup c l else none := by
  induction l with
  | nil => simp [List.lookup]
  | cons p t ih =>
    obtain ⟨k, v⟩ := p
    by_cases hck : c = k
    · subst hck
      by_cases hf : f c = true
      · simp [List.filter_cons, hf, List.lookup]
      · simp [List.filter_cons, hf, List.lookup, ih]
    · have hbeq : (c == k) = false := by simp [hck]
      by_cases hf : f k = true
      · simp [List.filter_cons, hf, List.lookup, hbeq, ih]
      · simp [List.filter_cons, hf, List.lookup, hbeq, ih]

theorem lookup_filterValues (schema : List String) (v : Row) (c : String) :
    List.lookup c (filterValues schema v) =
      if c ∈ schema then List.lookup c v else none := by
  rw [filterValues]
  have h := lookup_filter_keys (fun s => decide (s ∈ schema)) v c
  simp only [h]
  by_cases hc : c ∈ schema
  · rw [if_pos (by simpa using hc), if_pos hc]
  · rw [if_neg (by simpa using hc), if_neg hc]

theorem lookup_mem {c x : String} : ∀ {l : Row}, List.lookup c l = some x → (c, x) ∈ l := by
  intro l
  induction l with
  | nil => intro h; simp [List.lookup] at h
  | cons p t ih =>
    obtain ⟨k, v⟩ := p
    intro h
    by_cases hck : c = k
    · subst hck
      simp [List.lookup] at h
      exact List.mem_cons.mpr (Or.inl (by rw [h]))
    · have hbeq : (c == k) = false := by simp [hck]
      simp [List.lookup, hbeq] at h
      exact List.mem_cons_of_mem _ (ih h)

theorem lookup_append (c : String) (l₁ l₂ : Row) :
    List.lookup c (l₁ ++ l₂) =
      match List.lookup c l₁ with
      | some b => some b
      | none => List.lookup c l₂ := by
  induction l₁ with
  | nil => simp [List.lookup]
  | cons p t ih =>
    obtain ⟨k, v⟩ := p
    by_cases hck : c = k
    · subst hck; simp [List.lookup]
    · have hbeq : (c == k) = false := by simp [hck]
      simp [List.lookup, hbeq, ih]

theorem lookup_updateRow (old nw : Row) (c : String) :
    List.lookup c (updateRow old nw) =
      match List.lookup c nw with
      | some x => some x
      | none => List.lookup c old := by
  rw [updateRow, lookup_append]
  cases hn : List.lookup c nw with
  | some x => rfl
  | none =>
    have := lookup_filter_keys (fun s => (List.lookup s nw).isNone) old c
    simp only [this, hn]
    simp

theorem perm_eq_of_map_eq {α β : Type} (f : α → β) :
    ∀ l₁ l₂ : List α, l₁.Perm l₂ → l₁.map f = l₂.map f →
      (∀ x ∈ l₁, ∀ y ∈ l₁, f x = f y → x = y) → l₁ = l₂ := by
  intro l₁
  induction l₁ with
  | nil =>
    intro l₂ hp _ _
    exact (hp.symm.eq_nil).symm ▸ rfl
  | cons x t ih =>
    intro l₂ hp hm hinj
    cases l₂ with
    | nil => exact absurd hp.eq_nil (by simp)
    | cons y t₂ =>
      simp only [List.map_cons, List.cons.injEq] at hm
      have hxy : x = y := by
        have hy : y ∈ x :: t := hp.mem_iff.mpr (List.mem_cons_self y t₂)
        exact hinj x (List.mem_cons_self x t) y hy hm.1
      subst hxy
      have ht : t = t₂ :=
        ih t₂ hp.cons_inv hm.2
          (fun a ha b hb => hinj a (List.mem_cons_of_mem _ ha) b (List.mem_cons_of_mem _ hb))
      rw [ht]

/- ## Claims -/

/-- Helper: after the conflict-update map, the rows whose key matches the
new values are exactly one copy of the new values, given unique keys and
an existing match. -/
theorem filter_key_map_update (db : List MachineRow) (v : MachineRow)
    (hkeys : (db.map MachineRow.id_maquina).Nodup)
    (hex : ∃ r ∈ db, r.id_maquina = v.id_maquina) :
    (db.map (fun r => if r.id_maquina == v.id_maquina then v else r)).filter
      (fun r => r.id_maquina == v.id_maquina) = [v] := by
  induction db with
  | nil =>
    obtain ⟨r, hr, _⟩ := hex
    exact absurd hr (List.not_mem_nil r)
  | cons x t ih =>
    rw [List.map_cons, List.nodup_cons] at hkeys
    by_cases hx : x.id_maquina = v.id_maquina
    · have hxid : (x.id_maquina == v.id_maquina) = true := by simpa using hx
      have hnomatch : ∀ r ∈ t, r.id_maquina ≠ v.id_maquina := by
        intro r hr hcon
        exact hkeys.1 (by rw [hx, ← hcon]; exact List.mem_map_of_mem _ hr)
      have htail : (t.map (fun r => if r.id_maquina == v.id_maquina then v else r)).filter
          (fun r => r.id_maquina == v.id_maquina) = [] := by
        rw [List.filter_eq_nil_iff]
        intro a ha
        obtain ⟨r, hr, rfl⟩ := List.mem_map.mp ha
        have hne : (r.id_maquina == v.id_maquina) = false := by simpa using hnomatch r hr
        simp [hne]
      have hgx : (if x.id_maquina == v.id_maquina then v else x) = v := by simp [hx]
      have hvv : (v.id_maquina == v.id_maquina) = true := by simp
      rw [List.map_cons, hgx, List.filter_cons, if_pos hvv, htail]
    · have hxid : (x.id_maquina == v.id_maquina) = false := by simpa using hx
      have hex' : ∃ r ∈ t, r.id_maquina = v.id_maquina := by
        obtain ⟨r, hr, hid⟩ := hex
        rcases List.mem_cons.mp hr with rfl | hrt
        · exact absurd hid hx
        · exact ⟨r, hrt, hid⟩
      have hgx : (if x.id_maquina == v.id_maquina then v else x) = x := by simp [hx]
      have hne : ¬ ((x.id_maquina == v.id_maquina) = true) := by simp [hx]
      rw [List.map_cons, hgx, List.filter_cons, if_neg hne]
      exact ih hkeys.2 hex'

/-- C1: under the uniqueness constraint on `id_maquina` demanded by the
`on conflict` clause, running the CSV-import upsert twice with the same
values equals running it once, and the result holds exactly one row for
the key, carrying exactly the supplied values. -/
theorem upsert_natural_key_idempotent (db : List MachineRow) (v : MachineRow)
    (hkeys : (db.map MachineRow.id_maquina).Nodup) :
    upsertMachine (upsertMachine db v) v = upsertMachine db v ∧
    (upsertMachine db v).filter (fun r => r.id_maquina == v.id_maquina) = [v] := by
  by_cases hany : db.any (fun r => r.id_maquina == v.id_maquina) = true
  · obtain ⟨r₀, hr₀, hid₀⟩ := List.any_eq_true.mp hany
    have hid₀' : r₀.id_maquina = v.id_maquina := by simpa using hid₀
    have hu1 : upsertMachine db v =
        db.map (fun r => if r.id_maquina == v.id_maquina then v else r) := by
      rw [upsertMachine, if_pos hany]
    have hmemv : v ∈ db.map (fun r => if r.id_maquina == v.id_maquina then v else r) := by
      refine List.mem_map.mpr ⟨r₀, hr₀, ?_⟩
      simp [hid₀']
    have hany2 : (db.map (fun r => if r.id_maquina == v.id_maquina then v else r)).any
        (fun r => r.id_maquina == v.id_maquina) = true :=
      List.any_eq_true.mpr ⟨v, hmemv, by simp⟩
    constructor
    · rw [hu1, upsertMachine, if_pos hany2, List.map_map]
      refine List.map_congr_left ?_
      intro r _
      by_cases hr : r.id_maquina = v.id_maquina <;> simp [Function.comp, hr]
    · rw [hu1]
      exact filter_key_map_update db v hkeys ⟨r₀, hr₀, hid₀'⟩
  · have hanyf : db.any (fun r => r.id_maquina == v.id_maquina) = false := by
      simpa using hany
    have hnomatch : ∀ r ∈ db, r.id_maquina ≠ v.id_maquina := by
      intro r hr
      simpa using List.any_eq_false.mp hanyf r hr
    have hu1 : upsertMachine db v = db ++ [v] := by
      rw [upsertMachine, if_neg hany]
    constructor
    · rw [hu1, upsertMachine]
      have hany2 : (db ++ [v]).any (fun r => r.id_maquina == v.id_maquina) = true :=
        List.any_eq_true.mpr ⟨v, by simp, by simp⟩
      rw [if_pos hany2, List.map_append]
      have h1 : db.map (fun r => if r.id_maquina == v.id_maquina then v else r) = db := by
        have hc : ∀ r ∈ db, (if r.id_maquina == v.id_maquina then v else r) = r := by
          intro r hr
          simp [hnomatch r hr]
        rw [List.map_congr_left hc, List.map_id']
      rw [h1]
      simp
    · rw [hu1, List.filter_append]
      have h1 : db.filter (fun r => r.id_maquina == v.id_maquina) = [] := by
        rw [List.filter_eq_nil_iff]
        intro r hr
        simp [hnomatch r hr]
      rw [h1]
      simp

/-- C1 witness: upserting over a one-row table with the same key is
idempotent and leaves the new values as the unique row for the key. -/
theorem upsert_natural_key_idempotent_witness :
    upsertMachine (upsertMachine [mach1] mach1v) mach1v = upsertMachine [mach1] mach1v ∧
    (upsertMachine [mach1] mach1v).filter
      (fun r => r.id_maquina == mach1v.id_maquina) = [mach1v] :=
  upsert_natural_key_idempotent [mach1] mach1v (by decide)

/-- C2 counterexample: with the column `fabricante` absent from the live
schema (so absent from every returned row) and a non-empty fabricante
filter text, the machines-page filter returns the empty set instead of
the unfiltered set returned for empty filter texts — refuting the claim
that a filter over a missing column is silently disabled. -/
theorem filter_missing_column_claim_false :
    rowGet [("id_maquina", "1")] "fabricante" = none ∧
    pyStrip "x" ≠ "" ∧
    filteredRows ⟨"", "x", "", "", "", "(Todos)"⟩ [[("id_maquina", "1")]] = [] ∧
    filteredRows emptyFilters [[("id_maquina", "1")]] = [[("id_maquina", "1")]] :=
  ⟨rfl, by decide, by decide, by decide⟩

/-- C2 (amended): when one of the five text filters is non-empty and its
candidate column is absent from every returned row, every row is excluded
(the missing value reads as the empty string), so the filtered result is
the empty set — not the unfiltered set; no error is raised (the filter is
a total function). -/
theorem filter_missing_column_excludes (F : Filters) (rows : List Row) :
    ((pyStrip F.f_id ≠ "" ∧ ∀ r ∈ rows, rowGet r "id_maquina" = none) ∨
     (pyStrip F.f_fab ≠ "" ∧ ∀ r ∈ rows, rowGet r "fabricante" = none) ∨
     (pyStrip F.f_sector ≠ "" ∧ ∀ r ∈ rows, rowGet r "sector" = none) ∨
     (pyStrip F.f_modelo ≠ "" ∧ ∀ r ∈ rows, rowGet r "modelo" = none) ∨
     (pyStrip F.f_banco ≠ "" ∧ ∀ r ∈ rows, rowGet r "banco" = none)) →
    filteredRows F rows = [] := by
  intro h
  rw [filteredRows, List.filter_eq_nil_iff]
  intro r hr
  rcases h with ⟨hne, habs⟩ | ⟨hne, habs⟩ | ⟨hne, habs⟩ | ⟨hne, habs⟩ | ⟨hne, habs⟩
  · have hrow : rowStr r "id_maquina" = "" := by rw [rowStr, habs r hr]; rfl
    have hpy : pyIn (pyStrip F.f_id) (rowStr r "id_maquina") = false := by
      rw [hrow]; exact pyIn_empty_false _ hne
    simp [matchRow, hpy, hne]
  · have hrow : rowStr r "fabricante" = "" := by rw [rowStr, habs r hr]; rfl
    have hlo : pyLower (pyStrip F.f_fab) ≠ "" :=
      fun hc => hne ((pyLower_eq_empty_iff _).mp hc)
    have hpy : pyIn (pyLower (pyStrip F.f_fab)) (pyLower (rowStr r "fabricante")) = false := by
      rw [hrow]
      exact pyIn_empty_false _ hlo
    simp [matchRow, hpy, hne]
  · have hrow : rowStr r "sector" = "" := by rw [rowStr, habs r hr]; rfl
    have hlo : pyLower (pyStrip F.f_sector) ≠ "" :=
      fun hc => hne ((pyLower_eq_empty_iff _).mp hc)
    have hpy : pyIn (pyLower (pyStrip F.f_sector)) (pyLower (rowStr r "sector")) = false := by
      rw [hrow]
      exact pyIn_empty_false _ hlo
    simp [matchRow, hpy, hne]
  · have hrow : rowStr r "modelo" = "" := by rw [rowStr, habs r hr]; rfl
    have hlo : pyLower (pyStrip F.f_modelo) ≠ "" :=
      fun hc => hne ((pyLower_eq_empty_iff _).mp hc)
    have hpy : pyIn (pyLower (pyStrip F.f_modelo)) (pyLower (rowStr r "modelo")) = false := by
      rw [hrow]
      exact pyIn_empty_false _ hlo
    simp [matchRow, hpy, hne]
  · have hrow : rowStr r "banco" = "" := by rw [rowStr, habs r hr]; rfl
    have hlo : pyLower (pyStrip F.f_banco) ≠ "" :=
      fun hc => hne ((pyLower_eq_empty_iff _).mp hc)
    have hpy : pyIn (pyLower (pyStrip F.f_banco)) (pyLower (rowStr r "banco")) = false := by
      rw [hrow]
      exact pyIn_empty_false _ hlo
    simp [matchRow, hpy, hne]

/-- C2 witness: a concrete non-empty fabricante filter over a row without
the fabricante column yields the empty result. -/
theorem filter_missing_column_excludes_witness :
    filteredRows ⟨"", "ATRO", "", "", "", "(Todos)"⟩ [[("id_maquina", "1")]] = [] :=
  filter_missing_column_excludes _ _ (Or.inr (Or.inl (by decide)))

/-- C3: the selected columns of the modelled `resolveRead` are exactly
the intersection of the wanted list with the schema in the wanted order
(an order-preserving sublist), and when that intersection is empty the
fallback subset has size at most the cap and contains the
primary-key-like column whenever the schema has it. -/
theorem resolveRead_selected_columns_spec (wanted schema : List String) (pk : String) :
    (∀ c, c ∈ resolveSelect wanted schema ↔ c ∈ wanted ∧ c ∈ schema) ∧
    (resolveSelect wanted schema).Sublist wanted ∧
    (resolveSelect wanted schema = [] →
      (resolveReadColumns wanted schema pk).length ≤ fallbackN + 1 ∧
      (pk ∈ schema → pk ∈ resolveReadColumns wanted schema pk)) := by
  refine ⟨?_, List.filter_sublist wanted, ?_⟩
  · intro c
    simp [resolveSelect, List.mem_filter]
  · intro hemp
    rw [resolveReadColumns, if_pos hemp]
    constructor
    · rw [fallbackColumns, List.length_append]
      have h1 : (if pk ∈ schema then [pk] else []).length ≤ 1 := by
        split_ifs <;> simp
      have h2 := List.length_take_le fallbackN
        (lexSortCols (schema.filter (fun c => decide (c ≠ pk))))
      omega
    · intro hpk
      rw [fallbackColumns]
      exact List.mem_append_left _ (by rw [if_pos hpk]; exact List.mem_singleton_self pk)

/-- C3 witness: with no wanted column present, the fallback is within the
cap and contains the primary-key-like column. -/
theorem resolveRead_selected_columns_spec_witness :
    (resolveReadColumns ["zz"] ["id_maquina", "b", "a"] "id_maquina").length ≤ fallbackN + 1 ∧
    "id_maquina" ∈ resolveReadColumns ["zz"] ["id_maquina", "b", "a"] "id_maquina" := by
  have h := (resolveRead_selected_columns_spec ["zz"] ["id_maquina", "b", "a"] "id_maquina").2.2
    (by decide)
  exact ⟨h.1, h.2 (by decide)⟩

/-- C4: the modelled `appendRecord` fails with `SchemaMismatch` and adds
no row when every supplied key is absent from the schema; with at least
one present key it appends exactly one new row holding exactly the
schema-present pairs. -/
theorem appendRecord_schema_mismatch_spec (schema : List String) (db : List Row) (values : Row) :
    ((∀ p ∈ values, p.1 ∉ schema) →
      appendRecord schema db values = Except.error "SchemaMismatch") ∧
    ((∃ p ∈ values, p.1 ∈ schema) →
      ∃ row, appendRecord schema db values = Except.ok (db ++ [row]) ∧
        ∀ p : String × String, p ∈ row ↔ p ∈ values ∧ p.1 ∈ schema) := by
  constructor
  · intro h
    have hnil : filterValues schema values = [] := by
      rw [filterValues, List.filter_eq_nil_iff]
      intro p hp
      simpa using h p hp
    rw [appendRecord, if_pos hnil]
  · intro h
    obtain ⟨p, hp, hps⟩ := h
    have hne : filterValues schema values ≠ [] := by
      intro hnil
      have hmem : p ∈ filterValues schema values := by
        rw [filterValues]
        exact List.mem_filter.mpr ⟨hp, by simpa using hps⟩
      rw [hnil] at hmem
      exact absurd hmem (List.not_mem_nil p)
    refine ⟨filterValues schema values, ?_, ?_⟩
    · rw [appendRecord, if_neg hne]
    · intro q
      simp [filterValues, List.mem_filter]

/-- C4 witness: an append with only unknown keys fails with
`SchemaMismatch`; with one known key it adds exactly one row holding the
intersected pair. -/
theorem appendRecord_schema_mismatch_spec_witness :
    appendRecord ["fecha"] [] [("zzz", "1")] = Except.error "SchemaMismatch" ∧
    ∃ row, appendRecord ["fecha"] [] [("fecha", "2024-01-01"), ("zzz", "1")] =
        Except.ok ([] ++ [row]) ∧
      ∀ p : String × String,
        p ∈ row ↔ p ∈ [("fecha", "2024-01-01"), ("zzz", "1")] ∧ p.1 ∈ ["fecha"] :=
  ⟨(appendRecord_schema_mismatch_spec ["fecha"] [] [("zzz", "1")]).1 (by decide),
   (appendRecord_schema_mismatch_spec ["fecha"] [] [("fecha", "2024-01-01"), ("zzz", "1")]).2
     (by decide)⟩

/-- Helper: branch equation of the modelled upsert once the key column is
known present and the key value known supplied. -/
theorem upsertByNaturalKey_eq (schema : List String) (db : List Row) (k kv : String) (v : Row)
    (hk : k ∈ schema) (hkv : List.lookup k v = some kv) :
    upsertByNaturalKey schema db k v =
      (if db.any (fun r => List.lookup k r == some kv) then
        if (filterValues schema v).filter (fun p => decide (p.1 ≠ k)) = [] then Except.ok db
        else Except.ok (db.map (fun r =>
          if List.lookup k r == some kv then updateRow r (filterValues schema v) else r))
      else Except.ok (db ++ [filterValues schema v])) := by
  unfold upsertByNaturalKey
  rw [if_pos hk, hkv]

/-- Helper: the conflict-update map preserves the count of rows matching
the natural key. -/
theorem countP_key_map_update (db : List Row) (k kv : String) (fv : Row)
    (hfvk : List.lookup k fv = some kv) :
    (db.map (fun r => if List.lookup k r == some kv then updateRow r fv else r)).countP
      (fun r => List.lookup k r == some kv) =
      db.countP (fun r => List.lookup k r == some kv) := by
  induction db with
  | nil => rfl
  | cons x t ih =>
    rw [List.map_cons, List.countP_cons, List.countP_cons, ih]
    congr 1
    by_cases hm : (List.lookup k x == some kv) = true
    · rw [if_pos hm]
      have hup : List.lookup k (updateRow x fv) = some kv := by
        rw [lookup_updateRow, hfvk]
      simp [hup, hm]
    · rw [if_neg hm]

/-- C5: the modelled `upsertByNaturalKey`, applied with the natural-key
column present in the schema and a values mapping carrying the key (and
possibly columns unknown to the schema), succeeds without error, leaves
exactly one row holding the key value, keeps every stored column inside
the schema (unknown columns are silently dropped, no new column is
created), and writes every schema-present supplied value onto that
row. -/
theorem upsertByNaturalKey_drops_unknown_columns
    (schema : List String) (db : List Row) (k kv : String) (v : Row)
    (hk : k ∈ schema) (hkv : List.lookup k v = some kv)
    (_hvx : ∃ p ∈ v, p.1 ∉ schema)
    (huniq : db.countP (fun r => List.lookup k r == some kv) ≤ 1)
    (hclosed : ∀ r ∈ db, ∀ p ∈ r, p.1 ∈ schema) :
    ∃ db', upsertByNaturalKey schema db k v = Except.ok db' ∧
      db'.countP (fun r => List.lookup k r == some kv) = 1 ∧
      (∀ r ∈ db', ∀ p ∈ r, p.1 ∈ schema) ∧
      (∀ c x, c ∈ schema → List.lookup c v = some x →
        ∃ r ∈ db', List.lookup k r = some kv ∧ List.lookup c r = some x) := by
  have hfvk : List.lookup k (filterValues schema v) = some kv := by
    rw [lookup_filterValues, if_pos hk]
    exact hkv
  have hfvlook : ∀ c x, c ∈ schema → List.lookup c v = some x →
      List.lookup c (filterValues schema v) = some x := by
    intro c x hc hx
    rw [lookup_filterValues, if_pos hc]
    exact hx
  have hfvclosed : ∀ p ∈ filterValues schema v, p.1 ∈ schema := by
    intro p hp
    rw [filterValues] at hp
    simpa using (List.mem_filter.mp hp).2
  rw [upsertByNaturalKey_eq schema db k kv v hk hkv]
  by_cases hany : db.any (fun r => List.lookup k r == some kv) = true
  · obtain ⟨r₀, hr₀, hpr₀⟩ := List.any_eq_true.mp hany
    have hr₀k : List.lookup k r₀ = some kv := by simpa using hpr₀
    have hcount1 : db.countP (fun r => List.lookup k r == some kv) = 1 := by
      have hpos : 0 < db.countP (fun r => List.lookup k r == some kv) :=
        List.countP_pos_iff.mpr ⟨r₀, hr₀, hpr₀⟩
      omega
    by_cases hnk : (filterValues schema v).filter (fun p => decide (p.1 ≠ k)) = []
    · rw [if_pos hany, if_pos hnk]
      refine ⟨db, rfl, hcount1, hclosed, ?_⟩
      intro c x hc hx
      have hcfv := hfvlook c x hc hx
      have hmemfv : (c, x) ∈ filterValues schema v := lookup_mem hcfv
      have hck : c = k := by
        by_contra hck
        have hmem2 : (c, x) ∈ (filterValues schema v).filter (fun p => decide (p.1 ≠ k)) :=
          List.mem_filter.mpr ⟨hmemfv, by simpa using hck⟩
        rw [hnk] at hmem2
        exact absurd hmem2 (List.not_mem_nil _)
      subst hck
      have hxkv : x = kv := (Option.some.inj (hkv.symm.trans hx)).symm
      refine ⟨r₀, hr₀, hr₀k, ?_⟩
      rw [hr₀k, hxkv]
    · rw [if_pos hany, if_neg hnk]
      refine ⟨_, rfl, ?_, ?_, ?_⟩
      · rw [countP_key_map_update db k kv _ hfvk]
        exact hcount1
      · intro r' hr' p hp
        obtain ⟨r, hr, rfl⟩ := List.mem_map.mp hr'
        by_cases hm : (List.lookup k r == some kv) = true
        · rw [if_pos hm, updateRow] at hp
          rcases List.mem_append.mp hp with hp | hp
          · exact hfvclosed p hp
          · exact hclosed r hr p (List.mem_filter.mp hp).1
        · rw [if_neg hm] at hp
          exact hclosed r hr p hp
      · intro c x hc hx
        refine ⟨(if List.lookup k r₀ == some kv then updateRow r₀ (filterValues schema v)
            else r₀), List.mem_map_of_mem _ hr₀, ?_, ?_⟩
        · rw [if_pos hpr₀, lookup_updateRow, hfvk]
        · rw [if_pos hpr₀, lookup_updateRow, hfvlook c x hc hx]
  · rw [if_neg hany]
    have hanyf : db.any (fun r => List.lookup k r == some kv) = false := by
      simpa using hany
    have hcount0 : db.countP (fun r => List.lookup k r == some kv) = 0 :=
      List.countP_eq_zero.mpr (List.any_eq_false.mp hanyf)
    refine ⟨_, rfl, ?_, ?_, ?_⟩
    · rw [List.countP_append, hcount0]
      have hone : (List.lookup k (filterValues schema v) == some kv) = true := by
        simp [hfvk]
      simp [List.countP_cons, hone]
    · intro r hr p hp
      rcases List.mem_append.mp hr with hr | hr
      · exact hclosed r hr p hp
      · rw [List.mem_singleton] at hr
        subst hr
        exact hfvclosed p hp
    · intro c x hc hx
      exact ⟨filterValues schema v, List.mem_append_right _ (List.mem_singleton_self _),
        hfvk, hfvlook c x hc hx⟩

/-- C5 witness: the spec scenario — upserting machine 32045 with an
unknown `estadoX` column succeeds, stores one row for the key with only
schema columns, and persists the known columns. -/
theorem upsertByNaturalKey_drops_unknown_columns_witness :
    ∃ db', upsertByNaturalKey ["id_maquina", "fabricante"] [] "id_maquina"
        [("id_maquina", "32045"), ("fabricante", "Acme"), ("estadoX", "activa")] =
        Except.ok db' ∧
      db'.countP (fun r => List.lookup "id_maquina" r == some "32045") = 1 ∧
      (∀ r ∈ db', ∀ p ∈ r, p.1 ∈ ["id_maquina", "fabricante"]) ∧
      (∀ c x, c ∈ ["id_maquina", "fabricante"] →
        List.lookup c [("id_maquina", "32045"), ("fabricante", "Acme"), ("estadoX", "activa")] =
          some x →
        ∃ r ∈ db', List.lookup "id_maquina" r = some "32045" ∧ List.lookup c r = some x) :=
  upsertByNaturalKey_drops_unknown_columns ["id_maquina", "fabricante"] [] "id_maquina" "32045"
    [("id_maquina", "32045"), ("fabricante", "Acme"), ("estadoX", "activa")]
    (by decide) (by decide) (by decide) (by decide) (by decide)

/-- C7 counterexample: two maintenance rows differing only in the
technician share `fecha` and `created_at`, so two different output orders
are both consistent with the history query's ordering — the returned
order is not determined. -/
theorem read_order_claim_false :
    historyReadOut 1 "(Todos)" 2 [rowA, rowB] [rowA, rowB] ∧
    historyReadOut 1 "(Todos)" 2 [rowA, rowB] [rowB, rowA] ∧
    ([rowA, rowB] : List MaintRow) ≠ [rowB, rowA] := by
  refine ⟨⟨[rowA, rowB], by decide, by decide, rfl⟩,
    ⟨[rowB, rowA], by decide, by decide, rfl⟩, by decide⟩

/-- C7 (amended): the machines read order is fully determined (its key is
unique under the upsert's constraint); the history read order is
determined whenever no two matching rows share both `fecha` and
`created_at` — ties in both fields are the only source of
nondeterminism. -/
theorem read_order_deterministic :
    (∀ db out₁ out₂ : List MachineRow, (db.map MachineRow.id_maquina).Nodup →
      machinesReadOut db out₁ → machinesReadOut db out₂ → out₁ = out₂) ∧
    (∀ (mid : Int) (tipo : String) (lim : Nat) (db out₁ out₂ : List MaintRow),
      (∀ r ∈ db.filter (historyPredB mid tipo), ∀ s ∈ db.filter (historyPredB mid tipo),
        r.fecha = s.fecha → r.created_at = s.created_at → r = s) →
      historyReadOut mid tipo lim db out₁ → historyReadOut mid tipo lim db out₂ →
      out₁ = out₂) := by
  constructor
  · intro db out₁ out₂ hnd h₁ h₂
    obtain ⟨hp₁, hs₁⟩ := h₁
    obtain ⟨hp₂, hs₂⟩ := h₂
    have hperm : out₁.Perm out₂ := hp₁.symm.trans hp₂
    have hsm₁ : List.Sorted (fun a b : Int => a ≤ b) (out₁.map MachineRow.id_maquina) :=
      List.Pairwise.map _ (fun a b hab => hab) hs₁
    have hsm₂ : List.Sorted (fun a b : Int => a ≤ b) (out₂.map MachineRow.id_maquina) :=
      List.Pairwise.map _ (fun a b hab => hab) hs₂
    have hmap : out₁.map MachineRow.id_maquina = out₂.map MachineRow.id_maquina :=
      List.eq_of_perm_of_sorted (hperm.map _) hsm₁ hsm₂
    have hnd₁ : (out₁.map MachineRow.id_maquina).Nodup := (hp₁.map _).nodup_iff.mp hnd
    exact perm_eq_of_map_eq _ out₁ out₂ hperm hmap
      (fun x hx y hy hxy => List.inj_on_of_nodup_map hnd₁ hx hy hxy)
  · intro mid tipo lim db out₁ out₂ hties h₁ h₂
    obtain ⟨f₁, hpf₁, hsf₁, ho₁⟩ := h₁
    obtain ⟨f₂, hpf₂, hsf₂, ho₂⟩ := h₂
    have hperm : f₁.Perm f₂ := hpf₁.symm.trans hpf₂
    have hsm₁ : List.Sorted histKeyOrd (f₁.map histKey) :=
      List.Pairwise.map _ (fun a b hab => hab) hsf₁
    have hsm₂ : List.Sorted histKeyOrd (f₂.map histKey) :=
      List.Pairwise.map _ (fun a b hab => hab) hsf₂
    have hmap : f₁.map histKey = f₂.map histKey :=
      List.eq_of_perm_of_sorted (hperm.map _) hsm₁ hsm₂
    have hinj : ∀ x ∈ f₁, ∀ y ∈ f₁, histKey x = histKey y → x = y := by
      intro x hx y hy hxy
      exact hties x (hpf₁.mem_iff.mpr hx) y (hpf₁.mem_iff.mpr hy)
        (congrArg Prod.fst hxy) (congrArg Prod.snd hxy)
    have hf : f₁ = f₂ := perm_eq_of_map_eq _ f₁ f₂ hperm hmap hinj
    rw [ho₁, ho₂, hf]

/-- C7 witness: a machines read over distinct keys and a tie-free history
read are deterministic at concrete inputs. -/
theorem read_order_deterministic_witness :
    ([mach1, mach2] : List MachineRow) = [mach1, mach2] ∧
    ([rowC] : List MaintRow) = [rowC] :=
  ⟨read_order_deterministic.1 [mach2, mach1] [mach1, mach2] [mach1, mach2] (by decide)
      (by decide) (by decide),
   read_order_deterministic.2 1 "(Todos)" 1 [rowC] [rowC] [rowC] (by decide)
      ⟨[rowC], by decide, by decide, rfl⟩ ⟨[rowC], by decide, by decide, rfl⟩⟩

/-- C6 counterexample: the SQL text of the history read is not independent
of the user-supplied type filter — the value `"(Todos)"` and the value
`"Preventiva"` produce different query texts. -/
theorem sql_text_not_input_independent :
    (historyQuery 1 "(Todos)" 100).1 ≠ (historyQuery 1 "Preventiva" 100).1 := by
  decide

/-- C6 (amended): every operation's SQL text is a fixed constant,
independent of all user-supplied values (user input appears only in the
bound-parameter lists), except the history read, whose text is one of two
fixed constants chosen only by whether the type filter equals
`"(Todos)"`. -/
theorem sql_text_constant_per_operation :
    (∀ u u' : String, (loginQuery u).1 = (loginQuery u').1) ∧
    (∀ a b : Int, (machineByIdQuery a).1 = (machineByIdQuery b).1) ∧
    (∀ (a₁ : Int) (s₁ f₁ m₁ j₁ c₁ b₁ e₁ n₁ : String)
        (a₂ : Int) (s₂ f₂ m₂ j₂ c₂ b₂ e₂ n₂ : String),
      (importUpsertQuery a₁ s₁ f₁ m₁ j₁ c₁ b₁ e₁ n₁).1 =
        (importUpsertQuery a₂ s₂ f₂ m₂ j₂ c₂ b₂ e₂ n₂).1) ∧
    (∀ (s₁ f₁ m₁ j₁ c₁ b₁ e₁ n₁ : String) (a₁ : Int)
        (s₂ f₂ m₂ j₂ c₂ b₂ e₂ n₂ : String) (a₂ : Int),
      (updateMachineQuery s₁ f₁ m₁ j₁ c₁ b₁ e₁ n₁ a₁).1 =
        (updateMachineQuery s₂ f₂ m₂ j₂ c₂ b₂ e₂ n₂ a₂).1) ∧
    (∀ a b : Int, (machineExistsQuery a).1 = (machineExistsQuery b).1) ∧
    (∀ i₁ i₂ : MaintInput, (maintInsertQuery i₁).1 = (maintInsertQuery i₂).1) ∧
    (∀ (u₁ h₁ r₁ n₁ : String) (a₁ : Bool) (u₂ h₂ r₂ n₂ : String) (a₂ : Bool),
      (createUserQuery u₁ h₁ r₁ n₁ a₁).1 = (createUserQuery u₂ h₂ r₂ n₂ a₂).1) ∧
    (∀ p₁ q₁ p₂ q₂ : String, (resetPwQuery p₁ q₁).1 = (resetPwQuery p₂ q₂).1) ∧
    (∀ (mid : Int) (tipo : String) (lim : Int),
      (historyQuery mid tipo lim).1 = historyAllSql ∨
      (historyQuery mid tipo lim).1 = historyTipoSql) ∧
    (∀ (mid : Int) (tipo : String) (lim : Int) (mid' : Int) (tipo' : String) (lim' : Int),
      (tipo == "(Todos)") = (tipo' == "(Todos)") →
      (historyQuery mid tipo lim).1 = (historyQuery mid' tipo' lim').1) := by
  refine ⟨fun _ _ => rfl, fun _ _ => rfl,
    fun _ _ _ _ _ _ _ _ _ _ _ _ _ _ _ _ _ _ => rfl,
    fun _ _ _ _ _ _ _ _ _ _ _ _ _ _ _ _ _ _ => rfl,
    fun _ _ => rfl, fun _ _ => rfl,
    fun _ _ _ _ _ _ _ _ _ _ => rfl, fun _ _ _ _ => rfl, ?_, ?_⟩
  · intro mid tipo lim
    by_cases h : tipo = "(Todos)" <;> simp [historyQuery, h]
  · intro mid tipo lim mid' tipo' lim' h
    by_cases ht : tipo = "(Todos)"
    · have ht' : tipo' = "(Todos)" := by
        rw [ht] at h; simpa [beq_iff_eq] using h.symm
      simp [historyQuery, ht, ht']
    · have ht' : tipo' ≠ "(Todos)" := by
        intro hc; rw [hc] at h; simp [beq_iff_eq] at h; exact ht h
      simp [historyQuery, beq_iff_eq, ht, ht']

/-- C6 witness: two concrete type-filtered history reads share the same
query text. -/
theorem sql_text_constant_per_operation_witness :
    (historyQuery 1 "Preventiva" 10).1 = (historyQuery 2 "Correctiva" 50).1 :=
  sql_text_constant_per_operation.2.2.2.2.2.2.2.2.2 1 "Preventiva" 10 2 "Correctiva" 50 (by decide)

/-- C8: a render with no user in the session always resets the page to
Login and renders only the login form; the Usuarios content is rendered
only for a logged-in user whose role is `"admin"`. -/
theorem unauthenticated_never_served (user : Option UserS) (page0 : String) :
    (user = none → route user page0 = ("Login", Rendered.loginForm)) ∧
    ((route user page0).2 = Rendered.usersContent →
      ∃ u, user = some u ∧ u.role = "admin") := by
  constructor
  · intro hu; subst hu
    by_cases h : page0 = "Login" <;> simp [route, h]
  · intro hr
    cases user with
    | none =>
      by_cases h : page0 = "Login" <;> simp [route, h] at hr
    | some u =>
      by_cases h1 : page0 = "Login"
      · simp [route, h1] at hr
      · by_cases h2 : page0 = "Máquinas"
        · simp [route, h1, h2] at hr
        · by_cases h3 : page0 = "Registrar"
          · simp [route, h1, h2, h3] at hr
          · by_cases h4 : page0 = "Historial"
            · simp [route, h1, h2, h3, h4] at hr
            · by_cases h5 : page0 = "Usuarios"
              · by_cases hrole : u.role = "admin"
                · exact ⟨u, rfl, hrole⟩
                · simp [route, h1, h2, h3, h4, h5, hrole] at hr
              · simp [route, h1, h2, h3, h4, h5] at hr

/-- C8 witness: an unauthenticated request for the machines page renders
the login form, and an admin session renders the users page content. -/
theorem unauthenticated_never_served_witness :
    route none "Máquinas" = ("Login", Rendered.loginForm) ∧
    ∃ u, (some ⟨1, "root", "admin", "Root"⟩ : Option UserS) = some u ∧ u.role = "admin" :=
  ⟨(unauthenticated_never_served none "Máquinas").1 rfl,
   (unauthenticated_never_served (some ⟨1, "root", "admin", "Root"⟩) "Usuarios").2 (by decide)⟩

/-- C9: the maintenance form inserts only when a machines row with the
given id exists — with no matching machine the maintenance table is
returned unchanged; and the submission preserves referential integrity of
`maintenance.id_maquina` into `machines`. -/
theorem maintenance_insert_requires_machine (machines : List MachineRow)
    (maint : List MaintRow) (inp : MaintInput) (now : Int) :
    ((∀ m ∈ machines, m.id_maquina ≠ inp.id_maquina) →
      submitMaintenance machines maint inp now = (maint, false)) ∧
    ((∀ r ∈ maint, ∃ m ∈ machines, m.id_maquina = r.id_maquina) →
      ∀ r ∈ (submitMaintenance machines maint inp now).1,
        ∃ m ∈ machines, m.id_maquina = r.id_maquina) := by
  constructor
  · intro h
    have hany : machines.any (fun m => m.id_maquina == inp.id_maquina) = false := by
      rw [List.any_eq_false]
      intro m hm
      simpa using h m hm
    simp [submitMaintenance, hany]
  · intro h r hr
    unfold submitMaintenance at hr
    by_cases hany : machines.any (fun m => m.id_maquina == inp.id_maquina) = true
    · rw [if_pos hany] at hr
      simp only [List.mem_append, List.mem_singleton] at hr
      rcases hr with hr | hr
      · exact h r hr
      · obtain ⟨m, hm, hmid⟩ := List.any_eq_true.mp hany
        refine ⟨m, hm, ?_⟩
        rw [hr]
        simpa using hmid
    · rw [if_neg hany] at hr
      exact h r hr

/-- C9 witness: submitting against an empty machines table changes
nothing, and submission against a table satisfying referential integrity
preserves it. -/
theorem maintenance_insert_requires_machine_witness :
    submitMaintenance [] [] ⟨5, 1, "Preventiva", "Operativa", "", "", "", "", "", "t"⟩ 0 =
      ([], false) ∧
    ∀ r ∈ (submitMaintenance [mach1] [] ⟨3, 1, "Preventiva", "Operativa", "", "", "", "", "", "t"⟩ 0).1,
      ∃ m ∈ [mach1], m.id_maquina = r.id_maquina :=
  ⟨(maintenance_insert_requires_machine [] [] _ 0).1 (by simp),
   (maintenance_insert_requires_machine [mach1] [] _ 0).2 (by simp)⟩

/-- C10 counterexample: the superscript `"²"` passes Python `isdigit` but
is not a decimal number, so the import raises a `ValueError` instead of
silently skipping the row as the claim states. -/
theorem csv_import_digit_id_errors :
    pyIsdigit "²" = true ∧ pyIntOfDigits "²" = none ∧
    importRow [] 0 ⟨"²", "", "", "", "", "", "", "", ""⟩ = Except.error "ValueError" :=
  ⟨by decide, by decide, rfl⟩

/-- Helper: a string accepted by `int(...)` also passes `isdigit`. -/
theorem pyIsdigit_of_intSome {s : String} {m : Int} (h : pyIntOfDigits s = some m) :
    pyIsdigit s = true := by
  unfold pyIntOfDigits at h
  by_cases hc : (!s.data.isEmpty && s.data.all Char.isDigit) = true
  · obtain ⟨h1, h2⟩ := Bool.and_eq_true_iff.mp hc
    unfold pyIsdigit
    rw [Bool.and_eq_true_iff]
    refine ⟨h1, ?_⟩
    rw [List.all_eq_true] at h2 ⊢
    intro c hcmem
    unfold pyDigitChar
    rw [h2 c hcmem]
    rfl
  · rw [if_neg hc] at h; exact absurd h (by simp)

/-- C10 (amended): an imported CSV row is upserted iff its id field
parses as a non-zero decimal number; rows failing `isdigit` or parsing to
zero are silently skipped; rows passing `isdigit` but failing decimal
parsing (superscript digits) abort the import with a `ValueError`.  The
stored estado is the row's estado when allowed, `"Operativa"`
otherwise. -/
theorem csv_import_row_behavior (db : List MachineRow) (count : Nat) (r : CsvRow) :
    (pyIsdigit r.id_maquina = false → importRow db count r = Except.ok (db, count)) ∧
    (pyIntOfDigits r.id_maquina = some 0 → importRow db count r = Except.ok (db, count)) ∧
    (∀ m : Int, pyIntOfDigits r.id_maquina = some m → m ≠ 0 →
      importRow db count r = Except.ok (upsertMachine db
        ⟨m, r.serie, r.fabricante, r.modelo, r.juego, r.sector, r.banco,
          (if r.estado ∈ ESTADOS_MAQUINA then r.estado else "Operativa"), r.notas⟩,
        count + 1)) ∧
    (pyIsdigit r.id_maquina = true → pyIntOfDigits r.id_maquina = none →
      importRow db count r = Except.error "ValueError") := by
  refine ⟨?_, ?_, ?_, ?_⟩
  · intro h; simp [importRow, h]
  · intro h
    rw [importRow, if_pos (pyIsdigit_of_intSome h), h]
    simp
  · intro m h hm
    rw [importRow, if_pos (pyIsdigit_of_intSome h), h]
    have hm0 : (m == 0) = false := by simpa using hm
    simp [hm0]
  · intro h1 h2
    rw [importRow, if_pos h1, h2]

/-- C10 witness: a non-numeric id is skipped and a numeric id is
upserted with the estado normalized to `"Operativa"`. -/
theorem csv_import_row_behavior_witness :
    importRow [] 0 ⟨"x1", "", "", "", "", "", "", "", ""⟩ = Except.ok ([], 0) ∧
    importRow [] 0 ⟨"7", "s", "f", "m", "j", "se", "b", "activa", "n"⟩ =
      Except.ok (upsertMachine [] ⟨7, "s", "f", "m", "j", "se", "b", "Operativa", "n"⟩, 1) := by
  constructor
  · exact (csv_import_row_behavior [] 0 _).1 (by decide)
  · have h := (csv_import_row_behavior [] 0 ⟨"7", "s", "f", "m", "j", "se", "b", "activa", "n"⟩).2.2.1
      7 (by decide) (by decide)
    exact h

end KRTGM
